import Mathlib

/-!
# The frame loop of `skeletal_animation.cpp`

A shallow embedding of the main loop of `src/skeletal_animation.cpp`: input
sampling, the action state machine (Idle / Moving / Rolling / Attacking), the
movement block, the storing of the previous button levels, the animation step
and the event callbacks.

Modelling decisions.

* C++ `float` values are rationals (`ℚ`): there is no infinity and no NaN.
  In `stateMachine` and `step` the arithmetic is exact; this decides no branch
  within a single frame.  Over several frames the rounding of the commit timer
  decides in which frame it reaches zero, so `stateMachineR` and `stepR` are
  the same code with the rounding of the timer arithmetic made explicit, and
  `f32` is the rounding to a `float`.
* `glm::length(v) > 0` is embedded as `0 < dot v v`, and `glm::length(v) < e`
  (for `e > 0`) as `dot v v < e * e`; no square root is needed for either test.
* The functions of libm and glm that are not rational (sine, cosine, atan2,
  `glm::normalize`, `glm::isnan`) are a parameter, `NumLib`.
* `Animation` and `Animator` come from `learnopengl/animator.h`, which is not
  part of the source file; they are modelled from the specification.
* A pointer to one of the four loaded `Animation` objects is a value of the
  enumeration `AnimPtr`; the objects themselves are the parameter `Content`.
* The time step `deltaTime` (computed from the clock at lines 211-213), the six
  sampled key and button levels, and the events delivered by `glfwPollEvents`
  are the inputs of a frame.
-/

namespace SkeletalAnimation

/-! ## Vectors -/

/-- A `glm::vec2`. -/
structure Vec2 where
  x : ℚ
  y : ℚ
deriving DecidableEq

/-- A `glm::vec3`. -/
structure Vec3 where
  x : ℚ
  y : ℚ
  z : ℚ
deriving DecidableEq

namespace Vec2

/-- The dot product of a `vec2` with itself is `length(v)^2`. -/
def dot (a b : Vec2) : ℚ := a.x * b.x + a.y * b.y

/-- The test `glm::length(v) > 0.0f`. -/
def lengthPos (v : Vec2) : Prop := 0 < dot v v

instance (v : Vec2) : Decidable (lengthPos v) := by
  unfold lengthPos; infer_instance

end Vec2

namespace Vec3

/-- Component-wise `a + b`. -/
def add (a b : Vec3) : Vec3 := ⟨a.x + b.x, a.y + b.y, a.z + b.z⟩

/-- The product `v * k` of a vector and a scalar. -/
def scale (a : Vec3) (k : ℚ) : Vec3 := ⟨a.x * k, a.y * k, a.z * k⟩

/-- The dot product. -/
def dot (a b : Vec3) : ℚ := a.x * b.x + a.y * b.y + a.z * b.z

/-- The cross product `glm::cross`. -/
def cross (a b : Vec3) : Vec3 :=
  ⟨a.y * b.z - b.y * a.z, a.z * b.x - b.z * a.x, a.x * b.y - b.x * a.y⟩

/-- The test `glm::length(v) > 0.0f`. -/
def lengthPos (v : Vec3) : Prop := 0 < dot v v

instance (v : Vec3) : Decidable (lengthPos v) := by
  unfold lengthPos; infer_instance

/-- The vector `glm::vec3(0)`. -/
def zero : Vec3 := ⟨0, 0, 0⟩

end Vec3

/-- The numeric library functions called by the movement block, as parameters. -/
structure NumLib where
  /-- The function `std::sin`. -/
  sin : ℚ → ℚ
  /-- The function `std::cos`. -/
  cos : ℚ → ℚ
  /-- The function `std::atan2`. -/
  atan2 : ℚ → ℚ → ℚ
  /-- The function `glm::normalize` on `vec3`. -/
  normalize : Vec3 → Vec3
  /-- The test `glm::any(glm::isnan(v))` of a result of `normalize`. -/
  anyIsNan : Vec3 → Bool

/-! ## Content: animations and the animator -/

/-- Modelled from the spec: a Clip (class `Animation` of
`learnopengl/animation.h`, which is missing from the source file) with its
duration in ticks (`GetDuration`) and its tick rate (`GetTicksPerSecond`). -/
structure Animation where
  durationTicks : ℚ
  ticksPerSecond : ℚ
deriving DecidableEq

/-- The four `Animation*` globals of line 73. -/
inductive AnimPtr where
  | gIdle
  | gWalk
  | gRoll
  | gAttack
deriving DecidableEq, Repr

/-- The four animations loaded at lines 192-195. -/
structure Content where
  idleAnim : Animation
  walkAnim : Animation
  rollAnim : Animation
  attackAnim : Animation

/-- Dereferencing an `Animation*`. -/
def Content.deref (A : Content) : AnimPtr → Animation
  | .gIdle => A.idleAnim
  | .gWalk => A.walkAnim
  | .gRoll => A.rollAnim
  | .gAttack => A.attackAnim

/-- Modelled from the spec: the playback cursor of the Animator (class
`Animator` of `learnopengl/animator.h`, which is missing from the source file):
the current clip and the current time in ticks.  The field `played` is a ghost
log of the arguments of all `PlayAnimation` calls so far, most recent first. -/
structure Animator where
  currentClip : AnimPtr
  currentTimeTicks : ℚ
  played : List AnimPtr
deriving DecidableEq

/-- Modelled from the spec: the constructor `Animator(clip)`, which is missing
from the source file; construction requires an initial clip, playback starts at
time 0. -/
def Animator.new (clip : AnimPtr) : Animator :=
  { currentClip := clip, currentTimeTicks := 0, played := [] }

/-- Modelled from the spec: `Animator::PlayAnimation`, which is missing from
the source file: "sets `currentClip = clip`, resets `currentTimeTicks = 0`". -/
def Animator.PlayAnimation (an : Animator) (clip : AnimPtr) : Animator :=
  { currentClip := clip, currentTimeTicks := 0, played := clip :: an.played }

/-- Modelled from the spec: the modulo of `Animator::UpdateAnimation` (C
`fmod`, the quotient truncated towards zero). -/
def fmod (a b : ℚ) : ℚ :=
  let q := a / b
  a - b * (if 0 ≤ q then (⌊q⌋ : ℚ) else (⌈q⌉ : ℚ))

/-- Modelled from the spec: `Animator::UpdateAnimation`, which is missing from
the source file: "advances `currentTimeTicks += deltaTimeSeconds *
clip.ticksPerSecond`; wraps via modulo against `durationTicks`". -/
def Animator.UpdateAnimation (A : Content) (an : Animator) (dt : ℚ) : Animator :=
  let clip := A.deref an.currentClip
  { an with
    currentTimeTicks :=
      fmod (an.currentTimeTicks + dt * clip.ticksPerSecond) clip.durationTicks }

/-- The helper `PlayLoop` (lines 82-84). -/
def PlayLoop (an : Animator) (anim : AnimPtr) : Animator :=
  an.PlayAnimation anim

/-- The helper `PlayOneShot` (lines 85-90): the animator after the call and the
value written to `outSec`. -/
def PlayOneShot (A : Content) (an : Animator) (anim : AnimPtr) : Animator × ℚ :=
  let an1 := an.PlayAnimation anim
  let durTicks := (A.deref anim).durationTicks
  let tps := (A.deref anim).ticksPerSecond
  (an1, if 0 < tps then durTicks / tps else 7 / 10)

/-- A division that is defined only for a positive divisor. -/
def divPos? (a b : ℚ) : Option ℚ :=
  if 0 < b then some (a / b) else none

/-- The helper `PlayOneShot` (lines 85-90) with its division replaced by
`divPos?`: the result is `none` exactly when the division of line 89 is
evaluated with a divisor that is zero or negative. -/
def PlayOneShotChecked (A : Content) (an : Animator) (anim : AnimPtr) :
    Option (Animator × ℚ) :=
  let an1 := an.PlayAnimation anim
  let durTicks := (A.deref anim).durationTicks
  let tps := (A.deref anim).ticksPerSecond
  if 0 < tps then (divPos? durTicks tps).map (fun sec => (an1, sec))
  else some (an1, 7 / 10)

/-! ## Program state -/

/-- The enumeration `ActionState` (line 65). -/
inductive ActionState where
  | Idle
  | Moving
  | Rolling
  | Attacking
deriving DecidableEq, Repr

/-- The global `player` (lines 29-35). -/
structure Player where
  pos : Vec3
  yawDeg : ℚ
  moveSpeed : ℚ
  rollSpeed : ℚ
  height : ℚ
deriving DecidableEq

/-- The global `cam` (lines 38-49). -/
structure OrbitCam where
  yawDeg : ℚ
  pitchDeg : ℚ
  distance : ℚ
  height : ℚ
  lookOffset : ℚ
  sens : ℚ
  minPitch : ℚ
  maxPitch : ℚ
  minDist : ℚ
  maxDist : ℚ
deriving DecidableEq

/-- The camera and the mouse state (lines 38-49 and 56-58), which the event
callbacks write. -/
structure View where
  cam : OrbitCam
  firstMouse : Bool
  lastX : ℚ
  lastY : ℚ
deriving DecidableEq

/-- The mutable globals that the main loop reads and writes. -/
structure Sim where
  state : ActionState
  actionTimeLeft : ℚ
  prevLMB : Bool
  prevSpace : Bool
  player : Player
  view : View
  animator : Animator
deriving DecidableEq

/-- An event delivered to a callback by `glfwPollEvents`. -/
inductive Event where
  | mouse (xpos ypos : ℚ)
  | scroll (yoffset : ℚ)

/-- The inputs of one iteration of the main loop. -/
structure Frame where
  /-- The value of `deltaTime` (lines 211-213). -/
  deltaTime : ℚ
  /-- Is `GLFW_KEY_W` pressed. -/
  keyW : Bool
  /-- Is `GLFW_KEY_S` pressed. -/
  keyS : Bool
  /-- Is `GLFW_KEY_D` pressed. -/
  keyD : Bool
  /-- Is `GLFW_KEY_A` pressed. -/
  keyA : Bool
  /-- The level `spaceNow` (line 224). -/
  spaceNow : Bool
  /-- The level `lmbNow` (line 225). -/
  lmbNow : Bool
  /-- The events handled by `glfwPollEvents` at the end of the iteration. -/
  events : List Event

/-- The initial values of the globals, with the animator constructed on the
idle animation (line 202). -/
def Sim.init : Sim :=
  { state := .Idle
    actionTimeLeft := 0
    prevLMB := false
    prevSpace := false
    player :=
      { pos := ⟨0, 0, 0⟩, yawDeg := 0, moveSpeed := 34 / 10, rollSpeed := 2,
        height := 11 / 10 }
    view :=
      { cam :=
          { yawDeg := 0, pitchDeg := -5, distance := 3, height := 35 / 100,
            lookOffset := 6 / 10, sens := 1 / 10, minPitch := -60, maxPitch := 35,
            minDist := 16 / 10, maxDist := 6 }
        firstMouse := true
        lastX := 1280 / 2
        lastY := 720 / 2 }
    animator := Animator.new .gIdle }

/-! ## One iteration of the main loop -/

/-- The helper `radiansf` (line 80). -/
def radiansf (d : ℚ) : ℚ := d * (17453292519943295 / 1000000000000000000)

/-- The function `glm::degrees`. -/
def degrees (r : ℚ) : ℚ := r * (57295779513082320876798154814105 / 1000000000000000000000000000000)

/-- The vector `moveInput` built from the W, S, D and A keys (lines 217-221). -/
def moveInput (f : Frame) : Vec2 :=
  let v : Vec2 := ⟨0, 0⟩
  let v : Vec2 := if f.keyW then ⟨v.x, v.y + 1⟩ else v
  let v : Vec2 := if f.keyS then ⟨v.x, v.y - 1⟩ else v
  let v : Vec2 := if f.keyD then ⟨v.x + 1, v.y⟩ else v
  let v : Vec2 := if f.keyA then ⟨v.x - 1, v.y⟩ else v
  v

/-- The STATE MACHINE block (lines 228-254). -/
def stateMachine (A : Content) (f : Frame) (s : Sim) : Sim :=
  if s.state = .Rolling ∨ s.state = .Attacking then
    let s1 := { s with actionTimeLeft := s.actionTimeLeft - f.deltaTime }
    if s1.actionTimeLeft ≤ 0 then
      if (moveInput f).lengthPos then
        { s1 with state := .Moving, animator := PlayLoop s1.animator .gWalk }
      else
        { s1 with state := .Idle, animator := PlayLoop s1.animator .gIdle }
    else s1
  else
    if f.spaceNow = true ∧ s.prevSpace = false then
      let r := PlayOneShot A s.animator .gRoll
      { s with state := .Rolling, animator := r.1, actionTimeLeft := r.2 }
    else if f.lmbNow = true ∧ s.prevLMB = false then
      let r := PlayOneShot A s.animator .gAttack
      { s with state := .Attacking, animator := r.1, actionTimeLeft := r.2 }
    else
      if (moveInput f).lengthPos then
        if s.state ≠ .Moving then
          { s with state := .Moving, animator := PlayLoop s.animator .gWalk }
        else s
      else
        if s.state ≠ .Idle then
          { s with state := .Idle, animator := PlayLoop s.animator .gIdle }
        else s

/-- The function `CameraForward` (lines 93-104). -/
def CameraForward (L : NumLib) (cam : OrbitCam) : Vec3 :=
  let yaw := radiansf cam.yawDeg
  let pit := radiansf cam.pitchDeg
  let f : Vec3 := ⟨L.cos pit * L.sin yaw, L.sin pit, L.cos pit * L.cos yaw⟩
  let f : Vec3 := { f with y := 0 }
  let f : Vec3 := if f.dot f < (1 / 1000000) * (1 / 1000000) then ⟨0, 0, 1⟩ else f
  L.normalize f

/-- The function `CameraRight` (lines 105-108). -/
def CameraRight (L : NumLib) (cam : OrbitCam) : Vec3 :=
  let f := CameraForward L cam
  L.normalize (f.cross ⟨0, 1, 0⟩)

/-- The MOVEMENT block (lines 257-275), run on the state that the state machine
has resolved. -/
def movement (L : NumLib) (f : Frame) (s : Sim) : Sim :=
  let camF := CameraForward L s.view.cam
  let camR := CameraRight L s.view.cam
  let wishDir := L.normalize ((camF.scale (moveInput f).y).add (camR.scale (moveInput f).x))
  let wishDir := if L.anyIsNan wishDir = true then Vec3.zero else wishDir
  if s.state = .Moving ∨ s.state = .Idle then
    let spd := if s.state = .Moving then s.player.moveSpeed else 0
    let p1 := { s.player with pos := s.player.pos.add ((wishDir.scale spd).scale f.deltaTime) }
    let p2 :=
      if wishDir.lengthPos then
        { p1 with yawDeg := degrees (L.atan2 wishDir.x wishDir.z) }
      else p1
    { s with player := p2 }
  else if s.state = .Rolling then
    let forwardChar :=
      L.normalize ⟨L.sin (radiansf s.player.yawDeg), 0, L.cos (radiansf s.player.yawDeg)⟩
    { s with
      player :=
        { s.player with
          pos := s.player.pos.add ((forwardChar.scale s.player.rollSpeed).scale f.deltaTime) } }
  else s

/-- The stores to `prevSpace` and `prevLMB` (lines 277-278). -/
def storePrev (f : Frame) (s : Sim) : Sim :=
  { s with prevSpace := f.spaceNow, prevLMB := f.lmbNow }

/-- The ANIMATION STEP (line 281). -/
def animationStep (A : Content) (f : Frame) (s : Sim) : Sim :=
  { s with animator := s.animator.UpdateAnimation A f.deltaTime }

/-- The callback `mouse_callback` (lines 333-344). -/
def mouse_callback (v : View) (xpos ypos : ℚ) : View :=
  let v : View :=
    if v.firstMouse = true then { v with lastX := xpos, lastY := ypos, firstMouse := false }
    else v
  let xoffset := xpos - v.lastX
  let yoffset := v.lastY - ypos
  let v : View := { v with lastX := xpos, lastY := ypos }
  let c : OrbitCam := { v.cam with yawDeg := v.cam.yawDeg + xoffset * v.cam.sens * (-1) }
  let c : OrbitCam := { c with pitchDeg := c.pitchDeg + yoffset * c.sens }
  let c : OrbitCam := if c.pitchDeg < c.minPitch then { c with pitchDeg := c.minPitch } else c
  let c : OrbitCam := if c.pitchDeg > c.maxPitch then { c with pitchDeg := c.maxPitch } else c
  { v with cam := c }

/-- The callback `scroll_callback` (lines 347-351). -/
def scroll_callback (v : View) (yoffset : ℚ) : View :=
  let c : OrbitCam := { v.cam with distance := v.cam.distance - yoffset * (1 / 2) }
  let c : OrbitCam := if c.distance < c.minDist then { c with distance := c.minDist } else c
  let c : OrbitCam := if c.distance > c.maxDist then { c with distance := c.maxDist } else c
  { v with cam := c }

/-- The call `glfwPollEvents` (line 320): every pending event goes to its
callback, in order. -/
def pollEvents (evs : List Event) (v : View) : View :=
  evs.foldl
    (fun v e =>
      match e with
      | .mouse x y => mouse_callback v x y
      | .scroll y => scroll_callback v y)
    v

/-- One iteration of the main loop (lines 209-321), rendering left out. -/
def step (L : NumLib) (A : Content) (s : Sim) (f : Frame) : Sim :=
  let s := stateMachine A f s
  let s := movement L f s
  let s := storePrev f s
  let s := animationStep A f s
  { s with view := pollEvents f.events s.view }

/-- The main loop run over a sequence of frames. -/
def run (L : NumLib) (A : Content) (s : Sim) (fs : List Frame) : Sim :=
  fs.foldl (step L A) s

/-- The sum `dt_1 + ... + dt_k` of the time steps of a sequence of frames. -/
def elapsed (fs : List Frame) : ℚ :=
  (fs.map (fun f => f.deltaTime)).sum

/-- The animation that belongs to an action state. -/
def clipOf : ActionState → AnimPtr
  | .Idle => .gIdle
  | .Moving => .gWalk
  | .Rolling => .gRoll
  | .Attacking => .gAttack

/-- The state is one of the two timed states, Rolling or Attacking. -/
def committed (st : ActionState) : Prop := st = .Rolling ∨ st = .Attacking

instance (st : ActionState) : Decidable (committed st) := by
  unfold committed; infer_instance

/-- The state is one of the two locomotion states, Idle or Moving. -/
def locomotion (st : ActionState) : Prop := st = .Idle ∨ st = .Moving

instance (st : ActionState) : Decidable (locomotion st) := by
  unfold locomotion; infer_instance

/-- A numeric library with trivial functions, for evaluating the loop on
concrete inputs. -/
def NumLib.sample : NumLib :=
  { sin := fun _ => 0, cos := fun _ => 1, atan2 := fun _ _ => 0,
    normalize := fun v => v, anyIsNan := fun _ => false }

/-- A sample content: four clips of 25 ticks per second. -/
def Content.sample : Content :=
  { idleAnim := ⟨50, 25⟩, walkAnim := ⟨25, 25⟩, rollAnim := ⟨30, 25⟩, attackAnim := ⟨40, 25⟩ }

/-- A frame with no key down, no button down and no events. -/
def Frame.quiet (dt : ℚ) : Frame :=
  { deltaTime := dt, keyW := false, keyS := false, keyD := false, keyA := false,
    spaceNow := false, lmbNow := false, events := [] }

/-! ## The commit timer in single precision

The timer `actionTimeLeft` is a `float`.  Its value after several frames is the
result of one rounded subtraction per frame (line 229), starting from a rounded
quotient (line 89), and the frame in which it reaches zero depends on that
rounding.  The state machine is therefore given a second time, with the rounding
of every arithmetic operation on the timer made explicit; the comparisons are
exact in either reading.  Values are finite: a quotient beyond the largest
finite `float` is outside the domain of the embedding. -/

/-- Rounding to the nearest integer, a tie to the even neighbour. -/
def roundEven (x : ℚ) : ℤ :=
  let n := ⌊x⌋
  let r := x - n
  if r < 1 / 2 then n
  else if 1 / 2 < r then n + 1
  else if n % 2 = 0 then n else n + 1

/-- Rounding of an exact result to IEEE 754 binary32, the C++ `float`: 24
significant bits, round to nearest, ties to even, the spacing of the subnormal
range below `2 ^ (-126)`. -/
def f32 (q : ℚ) : ℚ :=
  if q = 0 then 0
  else
    let e : ℤ := max (Int.log 2 |q|) (-126)
    roundEven (q / 2 ^ (e - 23)) * 2 ^ (e - 23)

/-- The helper `PlayOneShot` (lines 85-90) with the result of the division, and
the literal `0.7f`, rounded by `fl`. -/
def PlayOneShotR (fl : ℚ → ℚ) (A : Content) (an : Animator) (anim : AnimPtr) :
    Animator × ℚ :=
  let an1 := an.PlayAnimation anim
  let durTicks := (A.deref anim).durationTicks
  let tps := (A.deref anim).ticksPerSecond
  (an1, if 0 < tps then fl (durTicks / tps) else fl (7 / 10))

/-- The STATE MACHINE block (lines 228-254) with the result of
`actionTimeLeft -= deltaTime` (line 229) rounded by `fl`. -/
def stateMachineR (fl : ℚ → ℚ) (A : Content) (f : Frame) (s : Sim) : Sim :=
  if s.state = .Rolling ∨ s.state = .Attacking then
    let s1 := { s with actionTimeLeft := fl (s.actionTimeLeft - f.deltaTime) }
    if s1.actionTimeLeft ≤ 0 then
      if (moveInput f).lengthPos then
        { s1 with state := .Moving, animator := PlayLoop s1.animator .gWalk }
      else
        { s1 with state := .Idle, animator := PlayLoop s1.animator .gIdle }
    else s1
  else
    if f.spaceNow = true ∧ s.prevSpace = false then
      let r := PlayOneShotR fl A s.animator .gRoll
      { s with state := .Rolling, animator := r.1, actionTimeLeft := r.2 }
    else if f.lmbNow = true ∧ s.prevLMB = false then
      let r := PlayOneShotR fl A s.animator .gAttack
      { s with state := .Attacking, animator := r.1, actionTimeLeft := r.2 }
    else
      if (moveInput f).lengthPos then
        if s.state ≠ .Moving then
          { s with state := .Moving, animator := PlayLoop s.animator .gWalk }
        else s
      else
        if s.state ≠ .Idle then
          { s with state := .Idle, animator := PlayLoop s.animator .gIdle }
        else s

/-- One iteration of the main loop (lines 209-321) with the timer arithmetic
rounded by `fl`. -/
def stepR (fl : ℚ → ℚ) (L : NumLib) (A : Content) (s : Sim) (f : Frame) : Sim :=
  let s := stateMachineR fl A f s
  let s := movement L f s
  let s := storePrev f s
  let s := animationStep A f s
  { s with view := pollEvents f.events s.view }

/-- The main loop, with the timer arithmetic rounded by `fl`, run over a
sequence of frames. -/
def runR (fl : ℚ → ℚ) (L : NumLib) (A : Content) (s : Sim) (fs : List Frame) : Sim :=
  fs.foldl (stepR fl L A) s

/-- The commit timer that starts at `t` after one rounded subtraction of the
time step per frame, as line 229 computes it. -/
def timerAfter (fl : ℚ → ℚ) (t : ℚ) (fs : List Frame) : ℚ :=
  fs.foldl (fun t f => fl (t - f.deltaTime)) t

/-! ## Projections of one iteration -/

theorem pollEvents_nil (v : View) : pollEvents [] v = v := rfl

theorem UpdateAnimation_currentClip (A : Content) (an : Animator) (dt : ℚ) :
    (an.UpdateAnimation A dt).currentClip = an.currentClip := rfl

theorem UpdateAnimation_played (A : Content) (an : Animator) (dt : ℚ) :
    (an.UpdateAnimation A dt).played = an.played := rfl

theorem movement_state (L : NumLib) (f : Frame) (s : Sim) :
    (movement L f s).state = s.state := by
  unfold movement
  dsimp only
  split_ifs <;> rfl

theorem movement_actionTimeLeft (L : NumLib) (f : Frame) (s : Sim) :
    (movement L f s).actionTimeLeft = s.actionTimeLeft := by
  unfold movement
  dsimp only
  split_ifs <;> rfl

theorem movement_animator (L : NumLib) (f : Frame) (s : Sim) :
    (movement L f s).animator = s.animator := by
  unfold movement
  dsimp only
  split_ifs <;> rfl

theorem step_state (L : NumLib) (A : Content) (s : Sim) (f : Frame) :
    (step L A s f).state = (stateMachine A f s).state := by
  simp [step, animationStep, storePrev, movement_state]

theorem step_actionTimeLeft (L : NumLib) (A : Content) (s : Sim) (f : Frame) :
    (step L A s f).actionTimeLeft = (stateMachine A f s).actionTimeLeft := by
  simp [step, animationStep, storePrev, movement_actionTimeLeft]

theorem step_animator (L : NumLib) (A : Content) (s : Sim) (f : Frame) :
    (step L A s f).animator = (stateMachine A f s).animator.UpdateAnimation A f.deltaTime := by
  simp [step, animationStep, storePrev, movement_animator]

theorem step_played (L : NumLib) (A : Content) (s : Sim) (f : Frame) :
    (step L A s f).animator.played = (stateMachine A f s).animator.played := by
  rw [step_animator, UpdateAnimation_played]

theorem step_currentClip (L : NumLib) (A : Content) (s : Sim) (f : Frame) :
    (step L A s f).animator.currentClip = (stateMachine A f s).animator.currentClip := by
  rw [step_animator, UpdateAnimation_currentClip]

theorem step_prevSpace (L : NumLib) (A : Content) (s : Sim) (f : Frame) :
    (step L A s f).prevSpace = f.spaceNow := by
  simp [step, animationStep, storePrev]

theorem step_prevLMB (L : NumLib) (A : Content) (s : Sim) (f : Frame) :
    (step L A s f).prevLMB = f.lmbNow := by
  simp [step, animationStep, storePrev]

theorem step_player (L : NumLib) (A : Content) (s : Sim) (f : Frame) :
    (step L A s f).player = (movement L f (stateMachine A f s)).player := by
  simp [step, animationStep, storePrev]

theorem run_nil (L : NumLib) (A : Content) (s : Sim) : run L A s [] = s := rfl

theorem run_cons (L : NumLib) (A : Content) (s : Sim) (f : Frame) (fs : List Frame) :
    run L A s (f :: fs) = run L A (step L A s f) fs := rfl

theorem run_append (L : NumLib) (A : Content) (s : Sim) (fs gs : List Frame) :
    run L A s (fs ++ gs) = run L A (run L A s fs) gs := by
  simp [run, List.foldl_append]

theorem run_snoc (L : NumLib) (A : Content) (s : Sim) (fs : List Frame) (f : Frame) :
    run L A s (fs ++ [f]) = step L A (run L A s fs) f := by
  simp [run, List.foldl_append]

/-- The test `glm::length(moveInput) > 0` holds exactly for a non-zero vector. -/
theorem Vec2.lengthPos_iff (v : Vec2) : v.lengthPos ↔ v ≠ ⟨0, 0⟩ := by
  obtain ⟨x, y⟩ := v
  simp only [Vec2.lengthPos, Vec2.dot, ne_eq, Vec2.mk.injEq, not_and]
  constructor
  · intro h hx hy
    subst hx; subst hy
    simp at h
  · intro h
    by_cases hx : x = 0
    · have hy : y ≠ 0 := h hx
      have := mul_self_pos.mpr hy
      have := mul_self_nonneg x
      linarith
    · have := mul_self_pos.mpr hx
      have := mul_self_nonneg y
      linarith

/-! ## The state machine, case by case -/

/-- In a timed state whose decremented timer is still positive, only the timer
changes. -/
theorem stateMachine_hold (A : Content) (f : Frame) (s : Sim) (hc : committed s.state)
    (ht : 0 < s.actionTimeLeft - f.deltaTime) :
    stateMachine A f s = { s with actionTimeLeft := s.actionTimeLeft - f.deltaTime } := by
  unfold committed at hc
  unfold stateMachine
  rw [if_pos hc]
  dsimp only
  rw [if_neg (not_le.mpr ht)]

/-- In a timed state whose decremented timer is not positive, the state machine
falls back to Moving or Idle and plays the loop of that state. -/
theorem stateMachine_expire (A : Content) (f : Frame) (s : Sim) (hc : committed s.state)
    (ht : s.actionTimeLeft - f.deltaTime ≤ 0) :
    stateMachine A f s =
      if (moveInput f).lengthPos then
        { s with actionTimeLeft := s.actionTimeLeft - f.deltaTime, state := .Moving,
                 animator := PlayLoop s.animator .gWalk }
      else
        { s with actionTimeLeft := s.actionTimeLeft - f.deltaTime, state := .Idle,
                 animator := PlayLoop s.animator .gIdle } := by
  unfold committed at hc
  unfold stateMachine
  rw [if_pos hc]
  dsimp only
  rw [if_pos ht]

theorem not_committed_of_locomotion {st : ActionState} (h : locomotion st) :
    ¬ (st = .Rolling ∨ st = .Attacking) := by
  rcases h with h | h <;> simp [h]

theorem locomotion_or_committed (st : ActionState) : locomotion st ∨ committed st := by
  cases st <;> simp [locomotion, committed]

/-- In a locomotion state a rising roll edge starts the roll. -/
theorem stateMachine_roll (A : Content) (f : Frame) (s : Sim) (hl : locomotion s.state)
    (he : f.spaceNow = true ∧ s.prevSpace = false) :
    stateMachine A f s =
      { s with state := .Rolling, animator := (PlayOneShot A s.animator .gRoll).1,
               actionTimeLeft := (PlayOneShot A s.animator .gRoll).2 } := by
  unfold stateMachine
  rw [if_neg (not_committed_of_locomotion hl), if_pos he]

/-- In a locomotion state a rising attack edge without a rising roll edge starts
the attack. -/
theorem stateMachine_attack (A : Content) (f : Frame) (s : Sim) (hl : locomotion s.state)
    (hr : ¬ (f.spaceNow = true ∧ s.prevSpace = false))
    (he : f.lmbNow = true ∧ s.prevLMB = false) :
    stateMachine A f s =
      { s with state := .Attacking, animator := (PlayOneShot A s.animator .gAttack).1,
               actionTimeLeft := (PlayOneShot A s.animator .gAttack).2 } := by
  unfold stateMachine
  rw [if_neg (not_committed_of_locomotion hl), if_neg hr, if_pos he]

/-- In a locomotion state without a rising edge the move vector decides. -/
theorem stateMachine_walk (A : Content) (f : Frame) (s : Sim) (hl : locomotion s.state)
    (hr : ¬ (f.spaceNow = true ∧ s.prevSpace = false))
    (ha : ¬ (f.lmbNow = true ∧ s.prevLMB = false)) :
    stateMachine A f s =
      if (moveInput f).lengthPos then
        if s.state ≠ .Moving then
          { s with state := .Moving, animator := PlayLoop s.animator .gWalk }
        else s
      else
        if s.state ≠ .Idle then
          { s with state := .Idle, animator := PlayLoop s.animator .gIdle }
        else s := by
  unfold stateMachine
  rw [if_neg (not_committed_of_locomotion hl), if_neg hr, if_neg ha]

/-! ## Runs inside the commitment window -/

theorem elapsed_nil : elapsed [] = 0 := rfl

theorem elapsed_cons (f : Frame) (fs : List Frame) :
    elapsed (f :: fs) = f.deltaTime + elapsed fs := by
  simp [elapsed]

/-- One frame in a timed state whose decremented timer stays positive. -/
theorem step_hold (L : NumLib) (A : Content) (s : Sim) (f : Frame) (hc : committed s.state)
    (ht : 0 < s.actionTimeLeft - f.deltaTime) :
    (step L A s f).state = s.state ∧
    (step L A s f).actionTimeLeft = s.actionTimeLeft - f.deltaTime ∧
    (step L A s f).animator.played = s.animator.played ∧
    (step L A s f).animator.currentClip = s.animator.currentClip := by
  rw [step_state, step_actionTimeLeft, step_played, step_currentClip,
    stateMachine_hold A f s hc ht]
  exact ⟨rfl, rfl, rfl, rfl⟩

/-- One frame in a timed state whose decremented timer is not positive. -/
theorem step_expire (L : NumLib) (A : Content) (s : Sim) (f : Frame) (hc : committed s.state)
    (ht : s.actionTimeLeft - f.deltaTime ≤ 0) :
    locomotion (step L A s f).state ∧
    (step L A s f).actionTimeLeft = s.actionTimeLeft - f.deltaTime := by
  rw [step_state, step_actionTimeLeft, stateMachine_expire A f s hc ht]
  split_ifs
  · exact ⟨Or.inr rfl, rfl⟩
  · exact ⟨Or.inl rfl, rfl⟩

theorem take_succ_snoc (fs : List Frame) (j : ℕ) (hj : j < fs.length) :
    fs.take (j + 1) = fs.take j ++ [fs.get ⟨j, hj⟩] := by
  rw [List.take_succ]
  simp [List.getElem?_eq_getElem hj]

/-! ## What one frame can do to the state and to the animator -/

theorem stateMachine_player (A : Content) (f : Frame) (s : Sim) :
    (stateMachine A f s).player = s.player := by
  unfold stateMachine
  dsimp only
  split_ifs <;> rfl

theorem stateMachine_view (A : Content) (f : Frame) (s : Sim) :
    (stateMachine A f s).view = s.view := by
  unfold stateMachine
  dsimp only
  split_ifs <;> rfl

/-- The state machine calls `PlayAnimation` exactly when it changes the state,
with the clip of the new state. -/
theorem stateMachine_animator (A : Content) (f : Frame) (s : Sim) :
    (stateMachine A f s).animator =
      if (stateMachine A f s).state ≠ s.state then
        s.animator.PlayAnimation (clipOf (stateMachine A f s).state)
      else s.animator := by
  rcases locomotion_or_committed s.state with hl | hc
  · by_cases hr : f.spaceNow = true ∧ s.prevSpace = false
    · rw [stateMachine_roll A f s hl hr]
      rcases hl with h | h <;> simp [h, PlayOneShot, clipOf]
    · by_cases ha : f.lmbNow = true ∧ s.prevLMB = false
      · rw [stateMachine_attack A f s hl hr ha]
        rcases hl with h | h <;> simp [h, PlayOneShot, clipOf]
      · rw [stateMachine_walk A f s hl hr ha]
        rcases hl with h | h <;> by_cases hm : (moveInput f).lengthPos <;>
          simp [h, hm, PlayLoop, clipOf]
  · rcases lt_or_le 0 (s.actionTimeLeft - f.deltaTime) with ht | ht
    · rw [stateMachine_hold A f s hc ht]
      simp
    · rw [stateMachine_expire A f s hc ht]
      rcases hc with h | h <;> by_cases hm : (moveInput f).lengthPos <;>
        simp [h, hm, PlayLoop, clipOf]

/-- A frame ends in Rolling only if it started there or started the roll. -/
theorem step_rolling_cases (L : NumLib) (A : Content) (s : Sim) (f : Frame)
    (h : (step L A s f).state = .Rolling) :
    s.state = .Rolling ∨
      (locomotion s.state ∧ f.spaceNow = true ∧ s.prevSpace = false) := by
  rw [step_state] at h
  rcases locomotion_or_committed s.state with hl | hc
  · by_cases hr : f.spaceNow = true ∧ s.prevSpace = false
    · exact Or.inr ⟨hl, hr⟩
    · exfalso
      by_cases ha : f.lmbNow = true ∧ s.prevLMB = false
      · rw [stateMachine_attack A f s hl hr ha] at h
        simp at h
      · rw [stateMachine_walk A f s hl hr ha] at h
        rcases hl with hs | hs <;> by_cases hm : (moveInput f).lengthPos <;>
          simp [hs, hm] at h
  · rcases lt_or_le 0 (s.actionTimeLeft - f.deltaTime) with ht | ht
    · rw [stateMachine_hold A f s hc ht] at h
      exact Or.inl h
    · exfalso
      rw [stateMachine_expire A f s hc ht] at h
      by_cases hm : (moveInput f).lengthPos <;> simp [hm] at h

/-- A frame ends in Attacking only if it started there or started the attack. -/
theorem step_attacking_cases (L : NumLib) (A : Content) (s : Sim) (f : Frame)
    (h : (step L A s f).state = .Attacking) :
    s.state = .Attacking ∨
      (locomotion s.state ∧ f.lmbNow = true ∧ s.prevLMB = false) := by
  rw [step_state] at h
  rcases locomotion_or_committed s.state with hl | hc
  · by_cases hr : f.spaceNow = true ∧ s.prevSpace = false
    · exfalso
      rw [stateMachine_roll A f s hl hr] at h
      simp at h
    · by_cases ha : f.lmbNow = true ∧ s.prevLMB = false
      · exact Or.inr ⟨hl, ha⟩
      · exfalso
        rw [stateMachine_walk A f s hl hr ha] at h
        rcases hl with hs | hs <;> by_cases hm : (moveInput f).lengthPos <;>
          simp [hs, hm] at h
  · rcases lt_or_le 0 (s.actionTimeLeft - f.deltaTime) with ht | ht
    · rw [stateMachine_hold A f s hc ht] at h
      exact Or.inl h
    · exfalso
      rw [stateMachine_expire A f s hc ht] at h
      by_cases hm : (moveInput f).lengthPos <;> simp [hm] at h

/-- The value that `PlayOneShot` writes to the timer is not negative when the
duration of the clip is not negative. -/
theorem PlayOneShot_nonneg (A : Content) (an : Animator) (anim : AnimPtr)
    (h : 0 ≤ (A.deref anim).durationTicks) : 0 ≤ (PlayOneShot A an anim).2 := by
  unfold PlayOneShot
  dsimp only
  split_ifs with ht
  · exact div_nonneg h (le_of_lt ht)
  · norm_num

/-- One frame keeps the timer of a timed state non-negative. -/
theorem step_timer_nonneg (L : NumLib) (A : Content) (s : Sim) (f : Frame)
    (hroll : 0 ≤ A.rollAnim.durationTicks) (hatt : 0 ≤ A.attackAnim.durationTicks)
    (hc : committed (step L A s f).state) : 0 ≤ (step L A s f).actionTimeLeft := by
  rw [step_state] at hc
  rw [step_actionTimeLeft]
  rcases locomotion_or_committed s.state with hl | hcs
  · by_cases hr : f.spaceNow = true ∧ s.prevSpace = false
    · rw [stateMachine_roll A f s hl hr]
      exact PlayOneShot_nonneg A s.animator .gRoll hroll
    · by_cases ha : f.lmbNow = true ∧ s.prevLMB = false
      · rw [stateMachine_attack A f s hl hr ha]
        exact PlayOneShot_nonneg A s.animator .gAttack hatt
      · exfalso
        rw [stateMachine_walk A f s hl hr ha] at hc
        rcases hl with hs | hs <;> by_cases hm : (moveInput f).lengthPos <;>
          simp [hs, hm, committed] at hc
  · rcases lt_or_le 0 (s.actionTimeLeft - f.deltaTime) with ht | ht
    · rw [stateMachine_hold A f s hcs ht]
      exact le_of_lt ht
    · exfalso
      rw [stateMachine_expire A f s hcs ht] at hc
      by_cases hm : (moveInput f).lengthPos <;> simp [hm, committed] at hc

/-! ## The state machine with a rounded timer -/

/-- Without rounding, the rounded state machine is the exact one. -/
theorem stateMachineR_id (A : Content) (f : Frame) (s : Sim) :
    stateMachineR id A f s = stateMachine A f s := rfl

/-- Without rounding, the rounded iteration is the exact one. -/
theorem stepR_id (L : NumLib) (A : Content) (s : Sim) (f : Frame) :
    stepR id L A s f = step L A s f := rfl

theorem stepR_state (fl : ℚ → ℚ) (L : NumLib) (A : Content) (s : Sim) (f : Frame) :
    (stepR fl L A s f).state = (stateMachineR fl A f s).state := by
  simp [stepR, animationStep, storePrev, movement_state]

theorem stepR_actionTimeLeft (fl : ℚ → ℚ) (L : NumLib) (A : Content) (s : Sim) (f : Frame) :
    (stepR fl L A s f).actionTimeLeft = (stateMachineR fl A f s).actionTimeLeft := by
  simp [stepR, animationStep, storePrev, movement_actionTimeLeft]

theorem stepR_played (fl : ℚ → ℚ) (L : NumLib) (A : Content) (s : Sim) (f : Frame) :
    (stepR fl L A s f).animator.played = (stateMachineR fl A f s).animator.played := by
  simp [stepR, animationStep, storePrev, movement_animator, UpdateAnimation_played]

theorem runR_nil (fl : ℚ → ℚ) (L : NumLib) (A : Content) (s : Sim) :
    runR fl L A s [] = s := rfl

theorem runR_snoc (fl : ℚ → ℚ) (L : NumLib) (A : Content) (s : Sim) (fs : List Frame)
    (f : Frame) : runR fl L A s (fs ++ [f]) = stepR fl L A (runR fl L A s fs) f := by
  simp [runR, List.foldl_append]

theorem timerAfter_nil (fl : ℚ → ℚ) (t : ℚ) : timerAfter fl t [] = t := rfl

theorem timerAfter_snoc (fl : ℚ → ℚ) (t : ℚ) (fs : List Frame) (f : Frame) :
    timerAfter fl t (fs ++ [f]) = fl (timerAfter fl t fs - f.deltaTime) := by
  simp [timerAfter, List.foldl_append]

/-- Without rounding, the timer after a run is the start value minus the sum of
the time steps. -/
theorem timerAfter_id (t : ℚ) (fs : List Frame) :
    timerAfter id t fs = t - elapsed fs := by
  induction fs using List.reverseRecOn with
  | nil => simp [timerAfter_nil, elapsed_nil]
  | append_singleton q g ih =>
    rw [timerAfter_snoc, ih]
    simp [elapsed]
    ring

/-- In a timed state whose rounded, decremented timer is still positive, only
the timer changes. -/
theorem stateMachineR_hold (fl : ℚ → ℚ) (A : Content) (f : Frame) (s : Sim)
    (hc : committed s.state) (ht : 0 < fl (s.actionTimeLeft - f.deltaTime)) :
    stateMachineR fl A f s =
      { s with actionTimeLeft := fl (s.actionTimeLeft - f.deltaTime) } := by
  unfold committed at hc
  unfold stateMachineR
  rw [if_pos hc]
  dsimp only
  rw [if_neg (not_le.mpr ht)]

/-- In a timed state whose rounded, decremented timer is not positive, the state
machine falls back to Moving or Idle. -/
theorem stateMachineR_expire (fl : ℚ → ℚ) (A : Content) (f : Frame) (s : Sim)
    (hc : committed s.state) (ht : fl (s.actionTimeLeft - f.deltaTime) ≤ 0) :
    stateMachineR fl A f s =
      if (moveInput f).lengthPos then
        { s with actionTimeLeft := fl (s.actionTimeLeft - f.deltaTime), state := .Moving,
                 animator := PlayLoop s.animator .gWalk }
      else
        { s with actionTimeLeft := fl (s.actionTimeLeft - f.deltaTime), state := .Idle,
                 animator := PlayLoop s.animator .gIdle } := by
  unfold committed at hc
  unfold stateMachineR
  rw [if_pos hc]
  dsimp only
  rw [if_pos ht]

/-- In a locomotion state a rising roll edge starts the roll. -/
theorem stateMachineR_roll (fl : ℚ → ℚ) (A : Content) (f : Frame) (s : Sim)
    (hl : locomotion s.state) (he : f.spaceNow = true ∧ s.prevSpace = false) :
    stateMachineR fl A f s =
      { s with state := .Rolling, animator := (PlayOneShotR fl A s.animator .gRoll).1,
               actionTimeLeft := (PlayOneShotR fl A s.animator .gRoll).2 } := by
  unfold stateMachineR
  rw [if_neg (not_committed_of_locomotion hl), if_pos he]

/-- In a locomotion state a rising attack edge without a rising roll edge starts
the attack. -/
theorem stateMachineR_attack (fl : ℚ → ℚ) (A : Content) (f : Frame) (s : Sim)
    (hl : locomotion s.state) (hr : ¬ (f.spaceNow = true ∧ s.prevSpace = false))
    (he : f.lmbNow = true ∧ s.prevLMB = false) :
    stateMachineR fl A f s =
      { s with state := .Attacking, animator := (PlayOneShotR fl A s.animator .gAttack).1,
               actionTimeLeft := (PlayOneShotR fl A s.animator .gAttack).2 } := by
  unfold stateMachineR
  rw [if_neg (not_committed_of_locomotion hl), if_neg hr, if_pos he]

/-- One frame in a timed state whose rounded timer stays positive. -/
theorem stepR_hold (fl : ℚ → ℚ) (L : NumLib) (A : Content) (s : Sim) (f : Frame)
    (hc : committed s.state) (ht : 0 < fl (s.actionTimeLeft - f.deltaTime)) :
    (stepR fl L A s f).state = s.state ∧
    (stepR fl L A s f).actionTimeLeft = fl (s.actionTimeLeft - f.deltaTime) ∧
    (stepR fl L A s f).animator.played = s.animator.played := by
  rw [stepR_state, stepR_actionTimeLeft, stepR_played, stateMachineR_hold fl A f s hc ht]
  exact ⟨rfl, rfl, rfl⟩

/-- One frame in a timed state whose rounded timer is not positive. -/
theorem stepR_expire (fl : ℚ → ℚ) (L : NumLib) (A : Content) (s : Sim) (f : Frame)
    (hc : committed s.state) (ht : fl (s.actionTimeLeft - f.deltaTime) ≤ 0) :
    locomotion (stepR fl L A s f).state := by
  rw [stepR_state, stateMachineR_expire fl A f s hc ht]
  split_ifs
  · exact Or.inr rfl
  · exact Or.inl rfl

/-- A run that starts in a timed state and along which the rounded timer stays
positive never leaves the state and requests no clip. -/
theorem runR_hold (fl : ℚ → ℚ) (L : NumLib) (A : Content) (s : Sim)
    (hc : committed s.state) (fs : List Frame) :
    (∀ j : ℕ, 1 ≤ j → j ≤ fs.length → 0 < timerAfter fl s.actionTimeLeft (fs.take j)) →
      (runR fl L A s fs).state = s.state ∧
      (runR fl L A s fs).actionTimeLeft = timerAfter fl s.actionTimeLeft fs ∧
      (runR fl L A s fs).animator.played = s.animator.played := by
  induction fs using List.reverseRecOn with
  | nil =>
    intro _
    exact ⟨rfl, rfl, rfl⟩
  | append_singleton q g ih =>
    intro hpos
    have hq : ∀ j : ℕ, 1 ≤ j → j ≤ q.length →
        0 < timerAfter fl s.actionTimeLeft (q.take j) := by
      intro j h1 hj
      have := hpos j h1 (by simp; omega)
      rwa [List.take_append_of_le_length hj] at this
    obtain ⟨i1, i2, i3⟩ := ih hq
    have hlast : 0 < timerAfter fl s.actionTimeLeft (q ++ [g]) := by
      have := hpos (q ++ [g]).length (by simp) le_rfl
      rwa [List.take_length] at this
    rw [timerAfter_snoc, ← i2] at hlast
    have hc1 : committed (runR fl L A s q).state := by rw [i1]; exact hc
    obtain ⟨h1, h2, h3⟩ := stepR_hold fl L A _ g hc1 hlast
    rw [runR_snoc, timerAfter_snoc]
    exact ⟨by rw [h1, i1], by rw [h2, i2], by rw [h3, i3]⟩

/-! ## Evaluating the rounding to a `float` -/

theorem f32_zero : f32 0 = 0 := by
  simp [f32]

/-- A value strictly nearer to the integer `n` than to its neighbours rounds to
`n`. -/
theorem roundEven_of_near (x : ℚ) (n : ℤ) (h1 : (n : ℚ) - 1 / 2 < x)
    (h2 : x < (n : ℚ) + 1 / 2) : roundEven x = n := by
  unfold roundEven
  dsimp only
  rcases le_or_lt (n : ℚ) x with hx | hx
  · have hf : ⌊x⌋ = n := Int.floor_eq_iff.mpr ⟨hx, by linarith⟩
    rw [hf, if_pos (by linarith)]
  · have hf : ⌊x⌋ = n - 1 := Int.floor_eq_iff.mpr ⟨by push_cast; linarith, by push_cast; linarith⟩
    rw [hf]
    push_cast
    rw [if_neg (by linarith), if_pos (by linarith)]
    ring

/-- The rounding of a non-zero value with binary exponent `e >= -126` whose
scaled significand is nearest to `n`. -/
theorem f32_of_near (q : ℚ) (e n : ℤ) (he : -126 ≤ e) (hlo : (2 : ℚ) ^ e ≤ |q|)
    (hhi : |q| < (2 : ℚ) ^ (e + 1)) (h1 : (n : ℚ) - 1 / 2 < q / 2 ^ (e - 23))
    (h2 : q / 2 ^ (e - 23) < (n : ℚ) + 1 / 2) : f32 q = n * 2 ^ (e - 23) := by
  have hpos : 0 < |q| := lt_of_lt_of_le (by positivity) hlo
  have hq : q ≠ 0 := abs_pos.mp hpos
  have hlog : Int.log 2 |q| = e := by
    apply le_antisymm
    · have := (Int.lt_zpow_iff_log_lt (R := ℚ) (b := 2) (by norm_num) hpos).mp
        (by exact_mod_cast hhi)
      omega
    · exact (Int.zpow_le_iff_le_log (R := ℚ) (b := 2) (by norm_num) hpos).mp
        (by exact_mod_cast hlo)
  unfold f32
  rw [if_neg hq]
  dsimp only
  rw [hlog, max_eq_left he, roundEven_of_near _ n h1 h2]

/-! ## The claims -/

/-- C4 (one-shot timer rule): for every clip, `PlayOneShot` writes
`durationTicks / ticksPerSecond` to the commit timer when `ticksPerSecond > 0`,
and the constant 0.7, whatever the clip, when `ticksPerSecond` is zero or
negative; the version of `PlayOneShot` whose division fails on a zero or
negative divisor never fails and returns the same result, so the division is
never evaluated with such a divisor. -/
theorem PlayOneShot_timer_rule (A : Content) (an : Animator) (anim : AnimPtr) :
    (0 < (A.deref anim).ticksPerSecond →
      (PlayOneShot A an anim).2 =
        (A.deref anim).durationTicks / (A.deref anim).ticksPerSecond) ∧
    ((A.deref anim).ticksPerSecond ≤ 0 → (PlayOneShot A an anim).2 = 7 / 10) ∧
    PlayOneShotChecked A an anim = some (PlayOneShot A an anim) := by
  refine ⟨fun h => ?_, fun h => ?_, ?_⟩
  · simp [PlayOneShot, h]
  · simp [PlayOneShot, not_lt.mpr h]
  · unfold PlayOneShotChecked PlayOneShot divPos?
    by_cases h : 0 < (A.deref anim).ticksPerSecond <;> simp [h]

/-- Witness of C4: a clip of 30 ticks at 25 ticks per second gives 30/25, a clip
with rate 0 gives 7/10. -/
theorem PlayOneShot_timer_rule_witness :
    (PlayOneShot Content.sample (Animator.new .gIdle) .gRoll).2 = 30 / 25 ∧
    (PlayOneShot { Content.sample with attackAnim := ⟨40, 0⟩ } (Animator.new .gIdle)
      .gAttack).2 = 7 / 10 :=
  ⟨(PlayOneShot_timer_rule Content.sample (Animator.new .gIdle) .gRoll).1
      (by simp [Content.sample, Content.deref]),
   (PlayOneShot_timer_rule { Content.sample with attackAnim := ⟨40, 0⟩ }
      (Animator.new .gIdle) .gAttack).2.1 (by simp [Content.deref])⟩

/-- C2 (action start and priority): in a frame that starts in Idle or Moving,
whatever the move vector, a rising roll edge makes the state Rolling and plays
the roll clip one-shot, also when there is a rising attack edge in the same
frame; a rising attack edge without a rising roll edge makes the state Attacking
and plays the attack clip one-shot.  In both cases the commit timer is the value
that `PlayOneShot` computes from the clip that was started. -/
theorem action_start_priority (L : NumLib) (A : Content) (s : Sim) (f : Frame)
    (hl : locomotion s.state) :
    (f.spaceNow = true ∧ s.prevSpace = false →
      (step L A s f).state = .Rolling ∧
      (step L A s f).animator.played = .gRoll :: s.animator.played ∧
      (step L A s f).animator.currentClip = .gRoll ∧
      (step L A s f).actionTimeLeft =
        (if 0 < A.rollAnim.ticksPerSecond then
          A.rollAnim.durationTicks / A.rollAnim.ticksPerSecond else 7 / 10)) ∧
    (f.lmbNow = true ∧ s.prevLMB = false ∧ ¬ (f.spaceNow = true ∧ s.prevSpace = false) →
      (step L A s f).state = .Attacking ∧
      (step L A s f).animator.played = .gAttack :: s.animator.played ∧
      (step L A s f).animator.currentClip = .gAttack ∧
      (step L A s f).actionTimeLeft =
        (if 0 < A.attackAnim.ticksPerSecond then
          A.attackAnim.durationTicks / A.attackAnim.ticksPerSecond else 7 / 10)) := by
  constructor
  · intro he
    rw [step_state, step_played, step_currentClip, step_actionTimeLeft,
      stateMachine_roll A f s hl he]
    simp [PlayOneShot, Animator.PlayAnimation, Content.deref]
  · rintro ⟨h1, h2, hr⟩
    rw [step_state, step_played, step_currentClip, step_actionTimeLeft,
      stateMachine_attack A f s hl hr ⟨h1, h2⟩]
    simp [PlayOneShot, Animator.PlayAnimation, Content.deref]

/-- Witness of C2: from the initial configuration (Idle), a frame with space and
the left button both going down, and W held, starts the roll. -/
theorem action_start_priority_witness :
    (step NumLib.sample Content.sample Sim.init
      { Frame.quiet (1 / 60) with spaceNow := true, lmbNow := true, keyW := true }).state
      = .Rolling :=
  ((action_start_priority NumLib.sample Content.sample Sim.init
      { Frame.quiet (1 / 60) with spaceNow := true, lmbNow := true, keyW := true }
      (Or.inl rfl)).1 ⟨rfl, rfl⟩).1

/-- C3, as stated, fails: a frame that begins in Rolling with a commit timer of
1/10 > 0 and a time step of 1/5 leaves Rolling (here for Idle) in that very
frame, because the timer is decremented before it is tested. -/
theorem timed_rows_counterexample :
    committed ({ Sim.init with state := .Rolling, actionTimeLeft := 1 / 10 } : Sim).state ∧
    0 < ({ Sim.init with state := .Rolling, actionTimeLeft := 1 / 10 } : Sim).actionTimeLeft ∧
    (step NumLib.sample Content.sample
      { Sim.init with state := .Rolling, actionTimeLeft := 1 / 10 }
      (Frame.quiet (1 / 5))).state = .Idle := by
  refine ⟨Or.inl rfl, by norm_num, ?_⟩
  rw [step_state, stateMachine_expire _ _ _ (Or.inl rfl) (by norm_num [Frame.quiet])]
  have : ¬ (moveInput (Frame.quiet (1 / 5))).lengthPos := by
    simp [moveInput, Frame.quiet, Vec2.lengthPos, Vec2.dot]
  rw [if_neg this]

/-- C3, amended: in a frame that begins in Rolling or Attacking the timer is
always decremented by the time step; if the decremented timer is > 0 the state
does not change and no clip is requested; if the decremented timer is <= 0 the
state becomes Moving and the walk clip is requested when the move vector is
non-zero, and becomes Idle and the idle clip is requested otherwise.  In
particular, with a time step >= 0, a frame that begins with a commit timer
<= 0 makes that transition. -/
theorem timed_rows_amended (L : NumLib) (A : Content) (s : Sim) (f : Frame)
    (hc : committed s.state) :
    (step L A s f).actionTimeLeft = s.actionTimeLeft - f.deltaTime ∧
    (0 < s.actionTimeLeft - f.deltaTime →
      (step L A s f).state = s.state ∧
      (step L A s f).animator.played = s.animator.played) ∧
    (s.actionTimeLeft - f.deltaTime ≤ 0 →
      (moveInput f ≠ ⟨0, 0⟩ →
        (step L A s f).state = .Moving ∧
        (step L A s f).animator.played = .gWalk :: s.animator.played) ∧
      (moveInput f = ⟨0, 0⟩ →
        (step L A s f).state = .Idle ∧
        (step L A s f).animator.played = .gIdle :: s.animator.played)) ∧
    (0 ≤ f.deltaTime → s.actionTimeLeft ≤ 0 →
      (step L A s f).state = (if moveInput f ≠ ⟨0, 0⟩ then .Moving else .Idle)) := by
  have hexp : s.actionTimeLeft - f.deltaTime ≤ 0 →
      (moveInput f ≠ ⟨0, 0⟩ →
        (step L A s f).state = .Moving ∧
        (step L A s f).animator.played = .gWalk :: s.animator.played) ∧
      (moveInput f = ⟨0, 0⟩ →
        (step L A s f).state = .Idle ∧
        (step L A s f).animator.played = .gIdle :: s.animator.played) := by
    intro ht
    rw [step_state, step_played, stateMachine_expire A f s hc ht]
    constructor
    · intro hm
      rw [if_pos ((Vec2.lengthPos_iff _).mpr hm)]
      exact ⟨rfl, rfl⟩
    · intro hm
      rw [if_neg (fun h => (Vec2.lengthPos_iff _).mp h hm)]
      exact ⟨rfl, rfl⟩
  refine ⟨?_, ?_, hexp, ?_⟩
  · rw [step_actionTimeLeft]
    rcases lt_or_le 0 (s.actionTimeLeft - f.deltaTime) with ht | ht
    · rw [stateMachine_hold A f s hc ht]
    · rw [stateMachine_expire A f s hc ht]
      split_ifs <;> rfl
  · intro ht
    rw [step_state, step_played, stateMachine_hold A f s hc ht]
    exact ⟨rfl, rfl⟩
  · intro hdt ht
    have h := hexp (by linarith)
    by_cases hm : moveInput f = ⟨0, 0⟩
    · rw [(h.2 hm).1, if_neg (not_not.mpr hm)]
    · rw [(h.1 hm).1, if_pos hm]

/-- Witness of C3 amended: Rolling with 1/2 second left and a step of 1/60 stays
Rolling. -/
theorem timed_rows_amended_witness :
    (step NumLib.sample Content.sample
      { Sim.init with state := .Rolling, actionTimeLeft := 1 / 2 }
      (Frame.quiet (1 / 60))).state = .Rolling :=
  ((timed_rows_amended NumLib.sample Content.sample
      { Sim.init with state := .Rolling, actionTimeLeft := 1 / 2 }
      (Frame.quiet (1 / 60)) (Or.inl rfl)).2.1 (by norm_num [Frame.quiet])).1

/-- C5 (locomotion transitions): in a frame that starts in Idle or Moving with
no rising roll edge and no rising attack edge, the state after the frame is
Moving if and only if the move vector is non-zero, and Idle otherwise; the walk
clip is requested exactly on Idle -> Moving, the idle clip exactly on
Moving -> Idle, and nothing is requested otherwise; opposite keys cancel, so
with W = S and D = A the move vector is zero. -/
theorem locomotion_transitions (L : NumLib) (A : Content) (s : Sim) (f : Frame)
    (hl : locomotion s.state)
    (hr : ¬ (f.spaceNow = true ∧ s.prevSpace = false))
    (ha : ¬ (f.lmbNow = true ∧ s.prevLMB = false)) :
    ((step L A s f).state = .Moving ↔ moveInput f ≠ ⟨0, 0⟩) ∧
    ((step L A s f).state = .Idle ↔ moveInput f = ⟨0, 0⟩) ∧
    ((step L A s f).animator.played = .gWalk :: s.animator.played ↔
      (s.state = .Idle ∧ (step L A s f).state = .Moving)) ∧
    ((step L A s f).animator.played = .gIdle :: s.animator.played ↔
      (s.state = .Moving ∧ (step L A s f).state = .Idle)) ∧
    ((step L A s f).state = s.state →
      (step L A s f).animator.played = s.animator.played) ∧
    (f.keyW = f.keyS → f.keyD = f.keyA → moveInput f = ⟨0, 0⟩) := by
  have hcons : ∀ (c : AnimPtr) (l : List AnimPtr), l ≠ c :: l := by
    intro c l h
    have := congrArg List.length h
    simp at this
  rw [step_state, step_played, stateMachine_walk A f s hl hr ha]
  refine ⟨?_, ?_, ?_, ?_, ?_, ?_⟩
  · by_cases hm : (moveInput f).lengthPos
    · have hne := (Vec2.lengthPos_iff _).mp hm
      rw [if_pos hm]
      split_ifs with h1
      · simpa using hne
      · simp only [ne_eq, not_not] at h1
        simpa [h1] using hne
    · have hz : moveInput f = ⟨0, 0⟩ := by
        by_contra h
        exact hm ((Vec2.lengthPos_iff _).mpr h)
      rw [if_neg hm]
      split_ifs with h1
      · simp [hz]
      · simp only [ne_eq, not_not] at h1
        simp [h1, hz]
  · by_cases hm : (moveInput f).lengthPos
    · have hne := (Vec2.lengthPos_iff _).mp hm
      rw [if_pos hm]
      split_ifs with h1
      · simpa using hne
      · simp only [ne_eq, not_not] at h1
        simpa [h1] using hne
    · have hz : moveInput f = ⟨0, 0⟩ := by
        by_contra h
        exact hm ((Vec2.lengthPos_iff _).mpr h)
      rw [if_neg hm]
      split_ifs with h1
      · simp [hz]
      · simp only [ne_eq, not_not] at h1
        simp [h1, hz]
  · rcases hl with hs | hs <;> by_cases hm : (moveInput f).lengthPos <;>
      simp [hs, hm, PlayLoop, Animator.PlayAnimation, hcons]
  · rcases hl with hs | hs <;> by_cases hm : (moveInput f).lengthPos <;>
      simp [hs, hm, PlayLoop, Animator.PlayAnimation, hcons]
  · rcases hl with hs | hs <;> by_cases hm : (moveInput f).lengthPos <;>
      simp [hs, hm, PlayLoop, Animator.PlayAnimation]
  · intro h1 h2
    unfold moveInput
    rw [h1, h2]
    cases f.keyS <;> cases f.keyA <;> simp

/-- Witness of C5: from the initial configuration (Idle), a frame with only W
held ends in Moving and requests the walk clip. -/
theorem locomotion_transitions_witness :
    (step NumLib.sample Content.sample Sim.init
      { Frame.quiet (1 / 60) with keyW := true }).animator.played
      = .gWalk :: Sim.init.animator.played :=
  (locomotion_transitions NumLib.sample Content.sample Sim.init
      { Frame.quiet (1 / 60) with keyW := true } (Or.inl rfl)
      (by simp [Frame.quiet]) (by simp [Frame.quiet])).2.2.1.mpr
    ⟨rfl,
      (locomotion_transitions NumLib.sample Content.sample Sim.init
        { Frame.quiet (1 / 60) with keyW := true } (Or.inl rfl)
        (by simp [Frame.quiet]) (by simp [Frame.quiet])).1.mpr
        (by simp [moveInput, Frame.quiet])⟩

/-- C1, as stated, fails on the `float` timer: a roll of 13 ticks at 10 ticks per
second has D = 13/10, which line 89 rounds to 5452595/4194304 (1.29999995...).
After the frame that starts the roll from the initial configuration, one frame
with that very time step has dt_1 < D, so the claim keeps the state Rolling;
the code's timer is the rounded quotient minus dt_1 = 0 <= 0, and the state
after that frame is Idle. -/
theorem commitment_window_counterexample :
    locomotion Sim.init.state ∧
    (({ Frame.quiet (1 / 60) with spaceNow := true } : Frame).spaceNow = true ∧
      Sim.init.prevSpace = false) ∧
    0 < (({ Content.sample with rollAnim := ⟨13, 10⟩ } : Content).deref .gRoll).ticksPerSecond ∧
    0 ≤ (Frame.quiet (5452595 / 4194304)).deltaTime ∧
    elapsed (List.take 1 [Frame.quiet (5452595 / 4194304)]) <
      (({ Content.sample with rollAnim := ⟨13, 10⟩ } : Content).deref .gRoll).durationTicks /
        (({ Content.sample with rollAnim := ⟨13, 10⟩ } : Content).deref .gRoll).ticksPerSecond ∧
    (runR f32 NumLib.sample { Content.sample with rollAnim := ⟨13, 10⟩ }
      (stepR f32 NumLib.sample { Content.sample with rollAnim := ⟨13, 10⟩ } Sim.init
        { Frame.quiet (1 / 60) with spaceNow := true })
      (List.take 1 [Frame.quiet (5452595 / 4194304)])).state = .Idle := by
  have hD : f32 (13 / 10) = 5452595 / 4194304 := by
    rw [f32_of_near (13 / 10) 0 10905190 (by norm_num) (by norm_num [abs_of_pos])
      (by norm_num [abs_of_pos]) (by norm_num) (by norm_num)]
    norm_num
  have hstart : stateMachineR f32 { Content.sample with rollAnim := ⟨13, 10⟩ }
      { Frame.quiet (1 / 60) with spaceNow := true } Sim.init =
      { Sim.init with state := .Rolling,
                      animator := Sim.init.animator.PlayAnimation .gRoll,
                      actionTimeLeft := 5452595 / 4194304 } := by
    rw [stateMachineR_roll _ _ _ _ (Or.inl rfl) ⟨rfl, rfl⟩]
    simp [PlayOneShotR, Content.deref, hD]
  have hs : (stepR f32 NumLib.sample { Content.sample with rollAnim := ⟨13, 10⟩ } Sim.init
      { Frame.quiet (1 / 60) with spaceNow := true }).state = .Rolling := by
    rw [stepR_state, hstart]
  have ht : (stepR f32 NumLib.sample { Content.sample with rollAnim := ⟨13, 10⟩ } Sim.init
      { Frame.quiet (1 / 60) with spaceNow := true }).actionTimeLeft = 5452595 / 4194304 := by
    rw [stepR_actionTimeLeft, hstart]
  have hquiet : ¬ (moveInput (Frame.quiet (5452595 / 4194304))).lengthPos := by
    simp [moveInput, Frame.quiet, Vec2.lengthPos, Vec2.dot]
  refine ⟨Or.inl rfl, ⟨rfl, rfl⟩, by norm_num [Content.deref], by norm_num [Frame.quiet],
    by norm_num [elapsed, Frame.quiet, Content.deref], ?_⟩
  rw [List.take_succ_cons, List.take_zero, ← List.nil_append [Frame.quiet (5452595 / 4194304)],
    runR_snoc, runR_nil, stepR_state,
    stateMachineR_expire _ _ _ _ (Or.inl hs) (by rw [ht]; simp [Frame.quiet, f32_zero]),
    if_neg hquiet]

/-- C1, amended (commitment window on the rounded timer): take a frame that
starts in Idle or Moving and starts an action: Rolling by a rising roll edge
with the roll clip, or Attacking by a rising attack edge (and no rising roll
edge) with the attack clip, the clip having `ticksPerSecond > 0`, and let D be
`durationTicks / ticksPerSecond` as line 89 computes it, rounded by `fl` (for
the program, `f32`).  Then the state after that frame is the action with commit
timer D, and for every following sequence of frames with arbitrary time steps,
keys, buttons and events, writing t_0 = D and t_k = fl (t_(k-1) - dt_k) for the
timer as line 229 computes it: after frame k the state is still the action, the
timer is t_k and no clip has been requested, as long as t_1, ..., t_k are all
> 0; and at the first k >= 1 with t_k <= 0 the state is Idle or Moving.  Without
rounding t_k is D - (dt_1 + ... + dt_k). -/
theorem commitment_window_amended (fl : ℚ → ℚ) (L : NumLib) (A : Content) (s : Sim)
    (f0 : Frame) (fs : List Frame) (act : ActionState) (clip : AnimPtr)
    (hl : locomotion s.state)
    (hstart :
      (act = .Rolling ∧ clip = .gRoll ∧ f0.spaceNow = true ∧ s.prevSpace = false) ∨
      (act = .Attacking ∧ clip = .gAttack ∧ f0.lmbNow = true ∧ s.prevLMB = false ∧
        ¬ (f0.spaceNow = true ∧ s.prevSpace = false)))
    (htps : 0 < (A.deref clip).ticksPerSecond) :
    (stepR fl L A s f0).state = act ∧
    (stepR fl L A s f0).actionTimeLeft =
      fl ((A.deref clip).durationTicks / (A.deref clip).ticksPerSecond) ∧
    (∀ k : ℕ,
      (∀ j : ℕ, 1 ≤ j → j ≤ k →
        0 < timerAfter fl
          (fl ((A.deref clip).durationTicks / (A.deref clip).ticksPerSecond)) (fs.take j)) →
        (runR fl L A (stepR fl L A s f0) (fs.take k)).state = act ∧
        (runR fl L A (stepR fl L A s f0) (fs.take k)).actionTimeLeft =
          timerAfter fl
            (fl ((A.deref clip).durationTicks / (A.deref clip).ticksPerSecond)) (fs.take k) ∧
        (runR fl L A (stepR fl L A s f0) (fs.take k)).animator.played =
          (stepR fl L A s f0).animator.played) ∧
    (∀ k : ℕ, 1 ≤ k → k ≤ fs.length →
      timerAfter fl
        (fl ((A.deref clip).durationTicks / (A.deref clip).ticksPerSecond)) (fs.take k) ≤ 0 →
      (∀ j : ℕ, 1 ≤ j → j < k →
        0 < timerAfter fl
          (fl ((A.deref clip).durationTicks / (A.deref clip).ticksPerSecond)) (fs.take j)) →
      locomotion (runR fl L A (stepR fl L A s f0) (fs.take k)).state) ∧
    (∀ (t : ℚ) (k : ℕ), timerAfter id t (fs.take k) = t - elapsed (fs.take k)) := by
  have hs1 : (stepR fl L A s f0).state = act ∧
      (stepR fl L A s f0).actionTimeLeft =
        fl ((A.deref clip).durationTicks / (A.deref clip).ticksPerSecond) := by
    rcases hstart with ⟨ha, hcl, he1, he2⟩ | ⟨ha, hcl, he1, he2, hr⟩
    · subst ha; subst hcl
      rw [stepR_state, stepR_actionTimeLeft, stateMachineR_roll fl A f0 s hl ⟨he1, he2⟩]
      simp [PlayOneShotR, htps]
    · subst ha; subst hcl
      rw [stepR_state, stepR_actionTimeLeft, stateMachineR_attack fl A f0 s hl hr ⟨he1, he2⟩]
      simp [PlayOneShotR, htps]
  have hact : committed act := by
    rcases hstart with ⟨ha, _⟩ | ⟨ha, _⟩
    · exact Or.inl ha
    · exact Or.inr ha
  have hc1 : committed (stepR fl L A s f0).state := by rw [hs1.1]; exact hact
  have hrun : ∀ k : ℕ,
      (∀ j : ℕ, 1 ≤ j → j ≤ k →
        0 < timerAfter fl
          (fl ((A.deref clip).durationTicks / (A.deref clip).ticksPerSecond)) (fs.take j)) →
        (runR fl L A (stepR fl L A s f0) (fs.take k)).state = act ∧
        (runR fl L A (stepR fl L A s f0) (fs.take k)).actionTimeLeft =
          timerAfter fl
            (fl ((A.deref clip).durationTicks / (A.deref clip).ticksPerSecond)) (fs.take k) ∧
        (runR fl L A (stepR fl L A s f0) (fs.take k)).animator.played =
          (stepR fl L A s f0).animator.played := by
    intro k hk
    have hpos : ∀ j : ℕ, 1 ≤ j → j ≤ (fs.take k).length →
        0 < timerAfter fl (stepR fl L A s f0).actionTimeLeft ((fs.take k).take j) := by
      intro j h1 hj
      have hjk : j ≤ k := le_trans hj (by simp)
      rw [List.take_take, min_eq_left hjk, hs1.2]
      exact hk j h1 hjk
    obtain ⟨h1, h2, h3⟩ := runR_hold fl L A (stepR fl L A s f0) hc1 (fs.take k) hpos
    exact ⟨by rw [h1, hs1.1], by rw [h2, hs1.2], h3⟩
  refine ⟨hs1.1, hs1.2, hrun, ?_, fun t k => timerAfter_id t (fs.take k)⟩
  intro k hk1 hklen hend hfirst
  obtain ⟨j, rfl⟩ : ∃ j, k = j + 1 := ⟨k - 1, by omega⟩
  have hj : j < fs.length := by omega
  obtain ⟨h1, h2, _⟩ := hrun j (fun i hi1 hij => hfirst i hi1 (by omega))
  have hcj : committed (runR fl L A (stepR fl L A s f0) (fs.take j)).state := by
    rw [h1]; exact hact
  rw [take_succ_snoc fs j hj] at hend ⊢
  rw [timerAfter_snoc, ← h2] at hend
  rw [runR_snoc]
  exact stepR_expire fl L A _ _ hcj hend

/-- Witness of C1 amended, on the `float` rounding: a roll of 30 ticks at 25
ticks per second started from the initial configuration, whose quotient 6/5
rounds to 5033165/4194304, followed by one frame with exactly that time step
while the attack button goes down and W is held: the rounded timer is 0 after
that frame, so the frame ends in Idle or Moving. -/
theorem commitment_window_amended_witness :
    locomotion
      (runR f32 NumLib.sample Content.sample
        (stepR f32 NumLib.sample Content.sample Sim.init
          { Frame.quiet (1 / 60) with spaceNow := true })
        (List.take 1
          [{ Frame.quiet (5033165 / 4194304) with lmbNow := true, keyW := true }])).state :=
  (commitment_window_amended f32 NumLib.sample Content.sample Sim.init
      { Frame.quiet (1 / 60) with spaceNow := true }
      [{ Frame.quiet (5033165 / 4194304) with lmbNow := true, keyW := true }]
      .Rolling .gRoll (Or.inl rfl) (Or.inl ⟨rfl, rfl, rfl, rfl⟩)
      (by norm_num [Content.sample, Content.deref])).2.2.2.1 1 le_rfl (by simp)
    (by
      have hD : f32 (30 / 25) = 5033165 / 4194304 := by
        rw [f32_of_near (30 / 25) 0 10066330 (by norm_num) (by norm_num [abs_of_pos])
          (by norm_num [abs_of_pos]) (by norm_num) (by norm_num)]
        norm_num
      have hT : timerAfter f32 (f32 (30 / 25))
          [{ Frame.quiet (5033165 / 4194304) with lmbNow := true, keyW := true }] = 0 := by
        show f32 (f32 (30 / 25) - 5033165 / 4194304) = 0
        rw [hD, sub_self, f32_zero]
      exact le_of_eq hT)
    (by intro j h1 h2; omega)

/-- C6 (edge detection, no buffering): after every frame, in every state, the
stored previous levels are that frame's raw levels of the roll and attack
buttons.  Hence, in every sequence of frames, a frame `f` that follows a frame
`fp` makes a transition into Rolling (resp. Attacking) only if it starts in Idle
or Moving with the roll (resp. attack) button down in `f` and up in `fp`.  In
particular, from a frame that begins in Rolling or Attacking on, a button that
is held down in every frame starts no action: no frame of that stretch enters
Rolling (resp. Attacking). -/
theorem edge_detection_unbuffered (L : NumLib) (A : Content) (s : Sim) :
    (∀ f : Frame,
      (step L A s f).prevSpace = f.spaceNow ∧ (step L A s f).prevLMB = f.lmbNow) ∧
    (∀ (pre : List Frame) (fp f : Frame),
      ((run L A s (pre ++ [fp])).state ≠ .Rolling →
        (step L A (run L A s (pre ++ [fp])) f).state = .Rolling →
          locomotion (run L A s (pre ++ [fp])).state ∧
            f.spaceNow = true ∧ fp.spaceNow = false) ∧
      ((run L A s (pre ++ [fp])).state ≠ .Attacking →
        (step L A (run L A s (pre ++ [fp])) f).state = .Attacking →
          locomotion (run L A s (pre ++ [fp])).state ∧
            f.lmbNow = true ∧ fp.lmbNow = false)) ∧
    (committed s.state →
      ∀ (pre : List Frame) (f : Frame),
        ((∀ g ∈ pre ++ [f], g.spaceNow = true) →
          (step L A (run L A s pre) f).state = .Rolling → (run L A s pre).state = .Rolling) ∧
        ((∀ g ∈ pre ++ [f], g.lmbNow = true) →
          (step L A (run L A s pre) f).state = .Attacking →
            (run L A s pre).state = .Attacking)) := by
  refine ⟨fun f => ⟨step_prevSpace L A s f, step_prevLMB L A s f⟩, ?_, ?_⟩
  · intro pre fp f
    constructor
    · intro hne h
      rcases step_rolling_cases L A _ f h with h1 | ⟨hl, hd, hu⟩
      · exact absurd h1 hne
      · rw [run_snoc, step_prevSpace] at hu
        exact ⟨hl, hd, hu⟩
    · intro hne h
      rcases step_attacking_cases L A _ f h with h1 | ⟨hl, hd, hu⟩
      · exact absurd h1 hne
      · rw [run_snoc, step_prevLMB] at hu
        exact ⟨hl, hd, hu⟩
  · intro hc pre f
    constructor
    · intro hheld h
      rcases step_rolling_cases L A _ f h with h1 | ⟨hl, _, hu⟩
      · exact h1
      · exfalso
        rcases List.eq_nil_or_concat pre with hp | ⟨q, g, hp⟩
        · subst hp
          rw [run_nil] at hl
          exact not_committed_of_locomotion hl hc
        · subst hp
          rw [List.concat_eq_append, run_snoc, step_prevSpace] at hu
          have := hheld g (by simp)
          rw [hu] at this
          exact Bool.false_ne_true this
    · intro hheld h
      rcases step_attacking_cases L A _ f h with h1 | ⟨hl, _, hu⟩
      · exact h1
      · exfalso
        rcases List.eq_nil_or_concat pre with hp | ⟨q, g, hp⟩
        · subst hp
          rw [run_nil] at hl
          exact not_committed_of_locomotion hl hc
        · subst hp
          rw [List.concat_eq_append, run_snoc, step_prevLMB] at hu
          have := hheld g (by simp)
          rw [hu] at this
          exact Bool.false_ne_true this

/-- Witness of C6: from the initial configuration, a quiet frame followed by a
frame with space down enters Rolling; the frame before it had space up. -/
theorem edge_detection_unbuffered_witness :
    locomotion (run NumLib.sample Content.sample Sim.init ([] ++ [Frame.quiet (1 / 60)])).state ∧
      ({ Frame.quiet (1 / 60) with spaceNow := true } : Frame).spaceNow = true ∧
      (Frame.quiet (1 / 60)).spaceNow = false :=
  ((edge_detection_unbuffered NumLib.sample Content.sample Sim.init).2.1 []
      (Frame.quiet (1 / 60)) { Frame.quiet (1 / 60) with spaceNow := true }).1
    (by
      rw [run_snoc, run_nil, step_state,
        stateMachine_walk _ _ _ (Or.inl rfl) (by simp [Frame.quiet]) (by simp [Frame.quiet])]
      simp [moveInput, Frame.quiet, Vec2.lengthPos, Vec2.dot, Sim.init])
    (by
      have h1 : (run NumLib.sample Content.sample Sim.init
          ([] ++ [Frame.quiet (1 / 60)])).state = .Idle := by
        rw [run_snoc, run_nil, step_state,
          stateMachine_walk _ _ _ (Or.inl rfl) (by simp [Frame.quiet]) (by simp [Frame.quiet])]
        simp [moveInput, Frame.quiet, Vec2.lengthPos, Vec2.dot, Sim.init]
      have h2 : (run NumLib.sample Content.sample Sim.init
          ([] ++ [Frame.quiet (1 / 60)])).prevSpace = false := by
        rw [run_snoc, step_prevSpace]
        rfl
      rw [step_state, stateMachine_roll _ _ _ (Or.inl h1) ⟨rfl, h2⟩])

/-- C7 (state-dependent movement source): in a frame whose resolved state is
Attacking the position and the yaw of the player do not change; in a frame whose
resolved state is Rolling the yaw does not change and the position moves by
`rollSpeed * deltaTime` along the normalised facing direction
`(sin yaw, 0, cos yaw)` of the character, so that two such frames with the same
player and time step end with the same player whatever the keys, the buttons,
the camera and the rest of the state are. -/
theorem movement_source (L : NumLib) (A : Content) (s : Sim) (f : Frame) :
    ((step L A s f).state = .Attacking →
      (step L A s f).player.pos = s.player.pos ∧
      (step L A s f).player.yawDeg = s.player.yawDeg) ∧
    ((step L A s f).state = .Rolling →
      (step L A s f).player.yawDeg = s.player.yawDeg ∧
      (step L A s f).player.pos =
        s.player.pos.add
          (((L.normalize
              ⟨L.sin (radiansf s.player.yawDeg), 0, L.cos (radiansf s.player.yawDeg)⟩).scale
            s.player.rollSpeed).scale f.deltaTime)) ∧
    (∀ (B : Content) (t : Sim) (g : Frame),
      t.player = s.player → g.deltaTime = f.deltaTime →
      (step L A s f).state = .Rolling → (step L B t g).state = .Rolling →
      (step L B t g).player = (step L A s f).player) := by
  have hroll : ∀ (B : Content) (t : Sim) (g : Frame), (step L B t g).state = .Rolling →
      (step L B t g).player =
        { t.player with
          pos := t.player.pos.add
            (((L.normalize
                ⟨L.sin (radiansf t.player.yawDeg), 0, L.cos (radiansf t.player.yawDeg)⟩).scale
              t.player.rollSpeed).scale g.deltaTime) } := by
    intro B t g h
    rw [step_state] at h
    rw [step_player]
    unfold movement
    simp [h, stateMachine_player]
  refine ⟨?_, ?_, ?_⟩
  · intro h
    rw [step_state] at h
    rw [step_player]
    unfold movement
    simp [h, stateMachine_player]
  · intro h
    rw [hroll A s f h]
    exact ⟨rfl, rfl⟩
  · intro B t g hp hdt hs ht
    rw [hroll A s f hs, hroll B t g ht, hp, hdt]

/-- Witness of C7: a frame that starts a roll from the initial configuration
keeps the yaw of the player. -/
theorem movement_source_witness :
    (step NumLib.sample Content.sample Sim.init
      { Frame.quiet (1 / 60) with spaceNow := true, keyD := true }).player.yawDeg
      = Sim.init.player.yawDeg :=
  ((movement_source NumLib.sample Content.sample Sim.init
      { Frame.quiet (1 / 60) with spaceNow := true, keyD := true }).2.1
    (by rw [step_state, stateMachine_roll _ _ _ (Or.inl rfl) ⟨rfl, rfl⟩])).1

/-- C8, as stated, fails: on an animator that plays the walk clip and has
reached playback time 5, `PlayLoop` with the walk clip sets the playback time
back to 0. -/
theorem loop_play_counterexample :
    ({ currentClip := .gWalk, currentTimeTicks := 5, played := [] } : Animator).currentClip
      = .gWalk ∧
    (PlayLoop { currentClip := .gWalk, currentTimeTicks := 5, played := [] }
      .gWalk).currentTimeTicks = 0 ∧
    (PlayLoop { currentClip := .gWalk, currentTimeTicks := 5, played := [] }
      .gWalk).currentTimeTicks ≠ 5 := by
  refine ⟨rfl, rfl, ?_⟩
  show (0 : ℚ) ≠ 5
  norm_num

/-- C8, amended: for every animator whose current clip is c and whose playback
time is t, `PlayLoop(c)` keeps c as the current clip and sets the playback time
to 0, so the playback time stays t exactly when t = 0; calling it any number of
times in a row, at least once, leaves the same clip and time as calling it
once. -/
theorem loop_play_amended (an : Animator) (n : ℕ) :
    (PlayLoop an an.currentClip).currentClip = an.currentClip ∧
    (PlayLoop an an.currentClip).currentTimeTicks = 0 ∧
    ((PlayLoop an an.currentClip).currentTimeTicks = an.currentTimeTicks ↔
      an.currentTimeTicks = 0) ∧
    ((fun a => PlayLoop a an.currentClip)^[n + 1] an).currentClip =
      (PlayLoop an an.currentClip).currentClip ∧
    ((fun a => PlayLoop a an.currentClip)^[n + 1] an).currentTimeTicks =
      (PlayLoop an an.currentClip).currentTimeTicks := by
  refine ⟨rfl, rfl, ?_, ?_, ?_⟩
  · show (0 : ℚ) = an.currentTimeTicks ↔ an.currentTimeTicks = 0
    exact eq_comm
  · rw [Function.iterate_succ_apply']
    rfl
  · rw [Function.iterate_succ_apply']
    rfl

/-- C9 (commit timer invariant): in every configuration reached from the initial
one by frames with time step >= 0 and any inputs, with roll and attack clips of
non-negative duration, the commit timer is >= 0 whenever the state is Rolling or
Attacking, and a frame that leaves Rolling or Attacking for Idle or Moving ends
with a timer <= 0, which is the timer of the configuration minus the time
step. -/
theorem commit_timer_invariant (L : NumLib) (A : Content) (fs : List Frame)
    (hdt : ∀ f ∈ fs, 0 ≤ f.deltaTime)
    (hroll : 0 ≤ A.rollAnim.durationTicks) (hatt : 0 ≤ A.attackAnim.durationTicks) :
    (committed (run L A Sim.init fs).state → 0 ≤ (run L A Sim.init fs).actionTimeLeft) ∧
    (∀ f : Frame, 0 ≤ f.deltaTime →
      committed (run L A Sim.init fs).state →
      locomotion (step L A (run L A Sim.init fs) f).state →
        (step L A (run L A Sim.init fs) f).actionTimeLeft ≤ 0 ∧
        (step L A (run L A Sim.init fs) f).actionTimeLeft =
          (run L A Sim.init fs).actionTimeLeft - f.deltaTime) := by
  constructor
  · rcases List.eq_nil_or_concat fs with hp | ⟨q, g, hp⟩
    · subst hp
      intro hc
      rw [run_nil] at hc
      exact absurd hc (not_committed_of_locomotion (Or.inl rfl))
    · subst hp
      rw [List.concat_eq_append, run_snoc]
      exact step_timer_nonneg L A _ g hroll hatt
  · intro f _ hc hl
    rcases lt_or_le 0 ((run L A Sim.init fs).actionTimeLeft - f.deltaTime) with ht | ht
    · exfalso
      have h := (step_hold L A _ f hc ht).1
      rw [h] at hl
      exact not_committed_of_locomotion hl hc
    · have h := (step_expire L A _ f hc ht).2
      rw [h]
      exact ⟨ht, rfl⟩

/-- Witness of C9: after a frame that starts a roll from the initial
configuration the state is Rolling and the timer is not negative. -/
theorem commit_timer_invariant_witness :
    0 ≤ (run NumLib.sample Content.sample Sim.init
      [{ Frame.quiet (1 / 60) with spaceNow := true }]).actionTimeLeft :=
  (commit_timer_invariant NumLib.sample Content.sample
      [{ Frame.quiet (1 / 60) with spaceNow := true }]
      (by intro f hf; simp [Frame.quiet] at hf; rw [hf]; norm_num)
      (by norm_num [Content.sample]) (by norm_num [Content.sample])).1
    (by
      left
      rw [run_cons, run_nil, step_state, stateMachine_roll _ _ _ (Or.inl rfl) ⟨rfl, rfl⟩])

/-- C10 (clip follows state, no redundant restarts): in every frame the state
machine calls `PlayAnimation` if and only if the state after the step differs
from the state before it, and then with the clip of the new state.  So in every
configuration reached from the initial one the current clip of the animator is
the clip of the current state, and along a run of frames that stays in Idle or
in Moving the animator is changed by `UpdateAnimation` only: nothing is played
and the playback time is never reset. -/
theorem clip_follows_state (L : NumLib) (A : Content) :
    (∀ (s : Sim) (f : Frame),
      (stateMachine A f s).animator =
        (if (stateMachine A f s).state ≠ s.state then
          s.animator.PlayAnimation (clipOf (stateMachine A f s).state)
        else s.animator) ∧
      (step L A s f).state = (stateMachine A f s).state ∧
      (step L A s f).animator.played =
        (if (step L A s f).state ≠ s.state then
          clipOf (step L A s f).state :: s.animator.played
        else s.animator.played)) ∧
    (∀ fs : List Frame,
      (run L A Sim.init fs).animator.currentClip = clipOf (run L A Sim.init fs).state) ∧
    (∀ (s : Sim) (fs : List Frame), locomotion s.state →
      (∀ k : ℕ, k ≤ fs.length → (run L A s (fs.take k)).state = s.state) →
      (run L A s fs).animator =
        fs.foldl (fun an f => an.UpdateAnimation A f.deltaTime) s.animator) := by
  have hkeep : ∀ (s : Sim) (f : Frame), (step L A s f).state = s.state →
      (step L A s f).animator = s.animator.UpdateAnimation A f.deltaTime := by
    intro s f h
    rw [step_state] at h
    rw [step_animator, stateMachine_animator, if_neg (not_not.mpr h)]
  have hinv : ∀ (s : Sim) (f : Frame), s.animator.currentClip = clipOf s.state →
      (step L A s f).animator.currentClip = clipOf (step L A s f).state := by
    intro s f h
    rw [step_currentClip, step_state, stateMachine_animator]
    split_ifs with hs
    · rfl
    · rw [not_not.mp hs, h]
  refine ⟨?_, ?_, ?_⟩
  · intro s f
    refine ⟨stateMachine_animator A f s, step_state L A s f, ?_⟩
    rw [step_played, step_state, stateMachine_animator]
    split_ifs <;> rfl
  · intro fs
    induction fs using List.reverseRecOn with
    | nil => rfl
    | append_singleton q g ih =>
      rw [run_snoc]
      exact hinv _ g ih
  · intro s fs _ hstay
    induction fs using List.reverseRecOn with
    | nil => rfl
    | append_singleton q g ih =>
      have hq : ∀ k : ℕ, k ≤ q.length → (run L A s (q.take k)).state = s.state := by
        intro k hk
        have := hstay k (by simp; omega)
        rwa [List.take_append_of_le_length hk] at this
      have hlast : (run L A s (q ++ [g])).state = s.state := by
        have := hstay (q ++ [g]).length le_rfl
        rwa [List.take_length] at this
      have hqs : (run L A s q).state = s.state := by
        have := hq q.length le_rfl
        rwa [List.take_length] at this
      rw [run_snoc] at hlast ⊢
      rw [List.foldl_append, List.foldl_cons, List.foldl_nil, ← ih hq]
      exact hkeep _ g (by rw [hlast, hqs])

/-- Witness of C10: two frames with W held from the initial configuration stay
in Moving after the first; the second one only advances the animator. -/
theorem clip_follows_state_witness :
    (run NumLib.sample Content.sample
      (step NumLib.sample Content.sample Sim.init { Frame.quiet (1 / 60) with keyW := true })
      [{ Frame.quiet (1 / 60) with keyW := true }]).animator =
    [{ Frame.quiet (1 / 60) with keyW := true }].foldl
      (fun an f => an.UpdateAnimation Content.sample f.deltaTime)
      (step NumLib.sample Content.sample Sim.init
        { Frame.quiet (1 / 60) with keyW := true }).animator := by
  have hW : (moveInput { Frame.quiet (1 / 60) with keyW := true }).lengthPos := by
    simp [moveInput, Frame.quiet, Vec2.lengthPos, Vec2.dot]
  have h1 : (step NumLib.sample Content.sample Sim.init
      { Frame.quiet (1 / 60) with keyW := true }).state = .Moving := by
    rw [step_state,
      stateMachine_walk _ _ _ (Or.inl rfl) (by simp [Frame.quiet]) (by simp [Frame.quiet]),
      if_pos hW]
    rfl
  have h2 : (step NumLib.sample Content.sample
      (step NumLib.sample Content.sample Sim.init { Frame.quiet (1 / 60) with keyW := true })
      { Frame.quiet (1 / 60) with keyW := true }).state = .Moving := by
    rw [step_state,
      stateMachine_walk _ _ _ (Or.inr h1) (by simp [Frame.quiet]) (by simp [Frame.quiet]),
      if_pos hW, if_neg (not_not.mpr h1)]
    exact h1
  exact (clip_follows_state NumLib.sample Content.sample).2.2 _ _ (Or.inr h1)
    (by
      intro k hk
      simp only [List.length_singleton] at hk
      interval_cases k
      · rfl
      · rw [List.take_succ_cons, List.take_zero, run_cons, run_nil, h2, h1])

end SkeletalAnimation
